import Mathlib

/-
Verification development for the gazprom_bot trading core.

Shallow embedding conventions:
- Python floats are modelled as ℚ (exact rational arithmetic); all the
  claim-relevant float computations are products/sums/divisions whose
  claimed identities are exact.
- Python `None` / pandas NaN cells are modelled as `Option ℚ`.
- Python `int` is modelled as ℤ (or ℕ for counters that only grow).
- Python floor division `//` on ints is `Int.fdiv`; on floats it is `⌊·/·⌋`.
-/

namespace GazpromBot

/-! ## Execution simulator (src/execution/simulator.py) -/

inductive Side
  | BUY
  | SELL
deriving DecidableEq, Repr

structure ExecutionInput where
  ts : ℕ
  side : Side
  best_bid : Option ℚ
  best_ask : Option ℚ
  lot_size : ℤ
  max_position_rub : ℚ
  commission_pct_per_side : ℚ
  slippage_pct : ℚ
  desired_position_shares : Option ℤ := none
deriving DecidableEq, Repr

structure ExecutedTrade where
  ts : ℕ
  side : Side
  exec_price : ℚ
  qty_lots : ℤ
  qty_shares : ℤ
  gross_value : ℚ
  commission : ℚ
  slippage_value : ℚ
  net_value : ℚ
  reason : String := ""
deriving DecidableEq, Repr

/-- `ExecutionSimulator.position_value_limit_sizing`:
largest whole-lot quantity whose notional fits the cash limit. -/
def position_value_limit_sizing (price : Option ℚ) (lot_size : ℤ) (cash_limit_rub : ℚ) :
    ℤ × ℤ :=
  match price with
  | none => (0, 0)
  | some p =>
    if p ≤ 0 ∨ lot_size ≤ 0 ∨ cash_limit_rub ≤ 0 then (0, 0)
    else
      let max_shares : ℤ := ⌊cash_limit_rub / p⌋
      let qty_lots : ℤ := max 0 (Int.fdiv max_shares lot_size)
      (qty_lots, qty_lots * lot_size)

/-- `ExecutionSimulator.calc_exec_price`:
BUY fills at ask·(1+slippage), SELL at bid·(1−slippage); missing or
non-positive quote side gives no price. -/
def calc_exec_price (side : Side) (best_bid best_ask : Option ℚ) (slippage_pct : ℚ) :
    Option ℚ :=
  match side with
  | Side.BUY =>
    match best_ask with
    | none => none
    | some a => if a ≤ 0 then none else some (a * (1 + slippage_pct))
  | Side.SELL =>
    match best_bid with
    | none => none
    | some b => if b ≤ 0 then none else some (b * (1 - slippage_pct))

/-- The quantity determination step inside `ExecutionSimulator.execute`:
if a positive desired share count is given, round it down to whole lots and
re-size to the cap when the notional exceeds it; otherwise size by the cap.
(With `lot_size = 0` and a positive desired count the Python code raises
`ZeroDivisionError`; the claims are settled under `0 < lot_size`.) -/
def execute_sizing (inp : ExecutionInput) (exec_price : ℚ) : ℤ × ℤ :=
  match inp.desired_position_shares with
  | some d =>
    if 0 < d then
      let ql : ℤ := max 0 (Int.fdiv d inp.lot_size)
      let qs : ℤ := ql * inp.lot_size
      if inp.max_position_rub < (qs : ℚ) * exec_price then
        position_value_limit_sizing (some exec_price) inp.lot_size inp.max_position_rub
      else (ql, qs)
    else position_value_limit_sizing (some exec_price) inp.lot_size inp.max_position_rub
  | none => position_value_limit_sizing (some exec_price) inp.lot_size inp.max_position_rub

/-- Python truthiness of an optional numeric value (`None` and `0` are falsy). -/
def truthy : Option ℚ → Bool
  | none => false
  | some x => decide (x ≠ 0)

/-- `ExecutionSimulator.execute`. -/
def execute (inp : ExecutionInput) (reason : String := "") : Option ExecutedTrade :=
  match calc_exec_price inp.side inp.best_bid inp.best_ask inp.slippage_pct with
  | none => none
  | some exec_price =>
    let qty := execute_sizing inp exec_price
    let qty_lots := qty.1
    let qty_shares := qty.2
    if qty_shares ≤ 0 then none
    else
      let gross_value := exec_price * (qty_shares : ℚ)
      let commission := gross_value * inp.commission_pct_per_side
      let best_ref : Option ℚ :=
        match inp.side with
        | Side.BUY => inp.best_ask
        | Side.SELL => inp.best_bid
      let ref : ℚ := if truthy best_ref then best_ref.getD exec_price else exec_price
      let slip_unit : ℚ :=
        match inp.side with
        | Side.BUY => max 0 (exec_price - ref)
        | Side.SELL => max 0 (ref - exec_price)
      let slippage_value := slip_unit * (qty_shares : ℚ)
      let net_value : ℚ :=
        match inp.side with
        | Side.BUY => -(gross_value + commission)
        | Side.SELL => gross_value - commission
      some
        { ts := inp.ts
          side := inp.side
          exec_price := exec_price
          qty_lots := qty_lots
          qty_shares := qty_shares
          gross_value := gross_value
          commission := commission
          slippage_value := slippage_value
          net_value := net_value
          reason := reason }

/-! ## Risk manager (src/risk/manager.py) -/

structure RiskLimits where
  max_trades_per_day : ℕ
  daily_loss_limit_rub : ℚ
  stop_loss_pct_max : ℚ
  take_profit_pct_min : ℚ
  take_profit_pct_max : ℚ
  min_rr : ℚ
  max_position_rub : ℚ
deriving DecidableEq, Repr

structure DayStats where
  trades_count : ℕ := 0
  realized_pnl_rub : ℚ := 0
  realized_loss_rub : ℚ := 0
deriving DecidableEq, Repr

structure Position where
  entry_price : ℚ
  qty_shares : ℤ
  sl_price : Option ℚ := none
  tp_price : Option ℚ := none
deriving DecidableEq, Repr

/-- `RiskManager.allow_new_trade`. -/
def allow_new_trade (risk : RiskLimits) (stats : DayStats) : Bool :=
  if risk.max_trades_per_day ≤ stats.trades_count then false
  else if risk.daily_loss_limit_rub ≤ stats.realized_loss_rub then false
  else true

/-- `RiskManager.assign_stops_for_long`. -/
def assign_stops_for_long (risk : RiskLimits) (pos : Position) : Position :=
  let sl_pct := risk.stop_loss_pct_max
  let tp_pct := min (max risk.take_profit_pct_min (risk.min_rr * sl_pct))
    risk.take_profit_pct_max
  { pos with
      sl_price := some (pos.entry_price * (1 - sl_pct))
      tp_price := some (pos.entry_price * (1 + tp_pct)) }

/-- `RiskManager.update_day_stats_on_close`. -/
def update_day_stats_on_close (stats : DayStats) (entry_price exit_price : ℚ)
    (qty_shares : ℤ) (commission_rub : ℚ) : DayStats :=
  let pnl := (exit_price - entry_price) * (qty_shares : ℚ) - commission_rub
  { stats with
      realized_pnl_rub := stats.realized_pnl_rub + pnl
      trades_count := stats.trades_count + 1
      realized_loss_rub :=
        if pnl < 0 then stats.realized_loss_rub + |pnl| else stats.realized_loss_rub }

/-! ## Breakout strategy (src/strategy/gazp_breakout.py)

A candle row with attached indicator columns; a `none` field models a
missing column value / NaN cell. -/

structure Bar where
  open_ : Option ℚ := none
  high : Option ℚ := none
  low : Option ℚ := none
  close : Option ℚ := none
  volume : Option ℚ := none
  rsi14 : Option ℚ := none
  vol_sma20 : Option ℚ := none
  macd_hist : Option ℚ := none
deriving DecidableEq, Repr

/-- `StrategyParams` with its source defaults.  The source fields
`engulf_body_ratio` / `hammer_tail_ratio` are rendered here with the
suffix `frac`. -/
structure StrategyParams where
  lookback_swing : ℕ := 10
  volume_filter : Bool := true
  rsi_oversold : ℚ := 30
  rsi_overbought : ℚ := 70
  macd_div_lookback : ℕ := 20
  engulf_body_frac : ℚ := 11/20
  hammer_tail_frac : ℚ := 3/5
  min_bars_for_indicators : ℕ := 30
deriving DecidableEq, Repr

/-- Maximum of the present values of a list of optional rationals
(`none` iff every entry is `none`) — the pandas rolling max skips NaNs. -/
def omax (xs : List (Option ℚ)) : Option ℚ :=
  xs.foldl
    (fun acc x =>
      match acc, x with
      | none, y => y
      | some a, none => some a
      | some a, some b => some (max a b))
    none

/-- Minimum counterpart of `omax`. -/
def omin (xs : List (Option ℚ)) : Option ℚ :=
  xs.foldl
    (fun acc x =>
      match acc, x with
      | none, y => y
      | some a, none => some a
      | some a, some b => some (min a b))
    none

/-- The `high` cell of bar `i` (missing when `i` is out of range). -/
def highAt (df : List Bar) (i : ℕ) : Option ℚ := (df.get? i).bind Bar.high

/-- The `low` cell of bar `i`. -/
def lowAt (df : List Bar) (i : ℕ) : Option ℚ := (df.get? i).bind Bar.low

/-- `_swing_levels` high column: `rolling(lookback, min_periods=1).max().shift(1)`
at bar `i` is the max over the up-to-`lookback` bars `max(0, i-lookback) … i-1`,
skipping missing values; missing at bar 0. -/
def swing_high_prev (p : StrategyParams) (df : List Bar) (i : ℕ) : Option ℚ :=
  if i = 0 then none
  else omax ((List.range' (i - p.lookback_swing) (min p.lookback_swing i)).map (highAt df))

/-- `_swing_levels` low column, analogously. -/
def swing_low_prev (p : StrategyParams) (df : List Bar) (i : ℕ) : Option ℚ :=
  if i = 0 then none
  else omin ((List.range' (i - p.lookback_swing) (min p.lookback_swing i)).map (lowAt df))

/-- `GazpBreakoutStrategy._is_bullish_engulfing` (any missing input ⇒ false). -/
def is_bullish_engulfing (prev_open prev_close curr_open curr_close curr_high curr_low :
    Option ℚ) (min_body_frac : ℚ) : Bool :=
  match prev_open, prev_close, curr_open, curr_close, curr_high, curr_low with
  | some po, some pc, some co, some cc, some ch, some cl =>
    let prev_bear := decide (pc < po)
    let curr_body := |cc - co|
    let full_range := max (1/1000000000) (ch - cl)
    let body_ok := decide (min_body_frac ≤ curr_body / full_range)
    let engulf := decide (co ≤ pc) && decide (po ≤ cc)
    prev_bear && body_ok && engulf && decide (co < cc)
  | _, _, _, _, _, _ => false

/-- `GazpBreakoutStrategy._is_hammer` (any missing input ⇒ false). -/
def is_hammer (curr_open curr_close curr_high curr_low : Option ℚ)
    (min_tail_frac : ℚ) : Bool :=
  match curr_open, curr_close, curr_high, curr_low with
  | some co, some cc, some ch, some cl =>
    let rng := max (1/1000000000) (ch - cl)
    let lower_tail := (min co cc - cl) / rng
    let upper_tail := (ch - max co cc) / rng
    let close_near_high := decide ((ch - cc) / rng ≤ 1/5)
    decide (min_tail_frac ≤ lower_tail) && decide (upper_tail ≤ 3/10) && close_near_high
  | _, _, _, _ => false

/-- Position of the least present value of the list (first position on ties),
as pandas `Series.idxmin` does over a window with NaNs skipped; `none` when no
value is present.  (On an all-NaN window pandas raises instead; that branch is
unreachable for the fully-populated inputs used in the theorems below.) -/
def idxmin (xs : List (Option ℚ)) : Option ℕ :=
  (xs.foldl
    (fun (acc : ℕ × Option (ℕ × ℚ)) x =>
      match x with
      | none => (acc.1 + 1, acc.2)
      | some v =>
        match acc.2 with
        | none => (acc.1 + 1, some (acc.1, v))
        | some (j, b) =>
          if v < b then (acc.1 + 1, some (acc.1, v)) else (acc.1 + 1, some (j, b)))
    (0, none)).2.map Prod.fst

/-- Position of the greatest present value (first position on ties). -/
def idxmax (xs : List (Option ℚ)) : Option ℕ :=
  (xs.foldl
    (fun (acc : ℕ × Option (ℕ × ℚ)) x =>
      match x with
      | none => (acc.1 + 1, acc.2)
      | some v =>
        match acc.2 with
        | none => (acc.1 + 1, some (acc.1, v))
        | some (j, b) =>
          if b < v then (acc.1 + 1, some (acc.1, v)) else (acc.1 + 1, some (j, b)))
    (0, none)).2.map Prod.fst

/-- Comparison of two optional values, false when either is missing
(as float comparisons with NaN are false in Python). -/
def oLt (a b : Option ℚ) : Bool :=
  match a, b with
  | some x, some y => decide (x < y)
  | _, _ => false

/-- `GazpBreakoutStrategy._has_positive_macd_divergence`. -/
def has_positive_macd_divergence (df : List Bar) (idx lookback : ℕ) : Bool :=
  if idx < 5 then false
  else
    let sub := (df.take (idx + 1)).drop (idx - lookback)
    let price := sub.map Bar.close
    let macdh := sub.map Bar.macd_hist
    if sub.length < 5 || price.all Option.isNone || macdh.all Option.isNone then false
    else
      let mid := sub.length / 2
      let left := price.take mid
      let right := price.drop mid
      if left.isEmpty || right.isEmpty then false
      else
        match idxmin left, idxmin right with
        | some li, some ri₀ =>
          let ri := mid + ri₀
          oLt (price.get? ri).join (price.get? li).join &&
            oLt (macdh.get? li).join (macdh.get? ri).join
        | _, _ => false

/-- `GazpBreakoutStrategy._has_negative_macd_divergence`. -/
def has_negative_macd_divergence (df : List Bar) (idx lookback : ℕ) : Bool :=
  if idx < 5 then false
  else
    let sub := (df.take (idx + 1)).drop (idx - lookback)
    let price := sub.map Bar.close
    let macdh := sub.map Bar.macd_hist
    if sub.length < 5 || price.all Option.isNone || macdh.all Option.isNone then false
    else
      let mid := sub.length / 2
      let left := price.take mid
      let right := price.drop mid
      if left.isEmpty || right.isEmpty then false
      else
        match idxmax left, idxmax right with
        | some li, some ri₀ =>
          let ri := mid + ri₀
          oLt (price.get? li).join (price.get? ri).join &&
            oLt (macdh.get? ri).join (macdh.get? li).join
        | _, _ => false

structure Signal where
  type : String
  ts : ℕ
  price : ℚ
  reason : String
deriving DecidableEq, Repr

/-- The volume filter of `generate_signals`: `volume > vol_sma20` is required
only when filtering is enabled and both values are present (`vol_ok`). -/
def vol_ok_at (p : StrategyParams) (df : List Bar) (i : ℕ) : Bool :=
  if p.volume_filter then
    match (df.get? i).bind Bar.volume, (df.get? i).bind Bar.vol_sma20 with
    | some v, some s => decide (s < v)
    | _, _ => true
  else true

/-- The breakout entry condition of `generate_signals` at bar `i`:
`high > swing_high_prev` together with the volume filter (`breakout_buy`). -/
def breakout_buy_at (p : StrategyParams) (df : List Bar) (i : ℕ) : Bool :=
  match highAt df i, swing_high_prev p df i with
  | some h, some s => decide (s < h) && vol_ok_at p df i
  | _, _ => false

/-- The body of one iteration of the `generate_signals` loop at bar `i ≥ 1`:
the (type, price, reason) of the at-most-one signal the bar emits.  The
timestamp is attached by `generate_signals` (the loop appends signals with
`ts = df.index[i]`, modelled here as the bar position `i`). -/
def bar_signal_core (p : StrategyParams) (df : List Bar) (i : ℕ) :
    Option (String × ℚ × String) :=
  match df.get? i, df.get? (i - 1) with
  | some row, some prev =>
    let breakout_buy := breakout_buy_at p df i
    let bull_engulf := is_bullish_engulfing prev.open_ prev.close row.open_ row.close
      row.high row.low p.engulf_body_frac
    let hammer := is_hammer row.open_ row.close row.high row.low p.hammer_tail_frac
    let rsi_buy :=
      match row.rsi14 with
      | some r => decide (r < p.rsi_oversold) && (bull_engulf || hammer)
      | none => false
    let macd_pos_div := has_positive_macd_divergence df i p.macd_div_lookback
    if breakout_buy || rsi_buy || macd_pos_div then
      match row.close with
      | some c =>
        let parts :=
          (if breakout_buy then ["пробой сопротивления + объём"] else []) ++
          (if rsi_buy then ["RSI<30 + разворотная свеча"] else []) ++
          (if macd_pos_div then ["положительная дивергенция MACD"] else [])
        some ("BUY", c, String.intercalate "; " parts)
      | none => none
    else
      let rsi_sell :=
        match row.rsi14 with
        | some r => decide (p.rsi_overbought < r)
        | none => false
      let macd_neg_div := has_negative_macd_divergence df i p.macd_div_lookback
      if rsi_sell && macd_neg_div then
        match row.close, row.high with
        | some c, _ => some ("SELL", c, "RSI>70 + медвежья дивергенция MACD")
        | none, some h => some ("SELL", h, "RSI>70 + медвежья дивергенция MACD")
        | none, none => none
      else
        match row.low, swing_low_prev p df i with
        | some l, some s =>
          if vol_ok_at p df i && decide (l < s) then
            match row.close with
            | some c => some ("CLOSE_LONG", c, "пробой поддержки + объём")
            | none => some ("CLOSE_LONG", l, "пробой поддержки + объём")
          else none
        | _, _ => none
  | _, _ => none

/-- `GazpBreakoutStrategy.generate_signals`: empty when the series is shorter
than `min_bars_for_indicators`, else the loop `for i in range(1, len(df))`
collecting each bar's emitted signal in order. -/
def generate_signals (p : StrategyParams) (df : List Bar) : List Signal :=
  if df.length < p.min_bars_for_indicators then []
  else
    (List.range' 1 (df.length - 1)).filterMap fun i =>
      (bar_signal_core p df i).map fun tpr => ⟨tpr.1, i, tpr.2.1, tpr.2.2⟩

/-! ## RSI (src/indicators/technicals.py, `Technicals.compute_rsi`) -/

/-- `ewm(alpha=α, adjust=False).mean()` recursion:
`y₀ = x₀`, `yₜ = (1-α)·yₜ₋₁ + α·xₜ`; `ewmRec α y xs` continues from `y`. -/
def ewmRec (α : ℚ) : ℚ → List ℚ → ℚ
  | y, [] => y
  | y, x :: xs => ewmRec α ((1 - α) * y + α * x) xs

/-- Final value of the exponential smoothing over a list (none when empty). -/
def ewm_last (α : ℚ) : List ℚ → Option ℚ
  | [] => none
  | x :: xs => some (ewmRec α x xs)

/-- `close.diff()` without its leading NaN: `delta i = close[i+1] - close[i]`. -/
def deltas (c : List ℚ) : List ℚ := List.zipWith (· - ·) (c.drop 1) c

/-- `delta.clip(lower=0)`. -/
def gains (c : List ℚ) : List ℚ := (deltas c).map fun d => max d 0

/-- `-delta.clip(upper=0)`. -/
def losses (c : List ℚ) : List ℚ := (deltas c).map fun d => max (-d) 0

/-- `avg_gain` at series index `i`: the `ewm(alpha=1/period, adjust=False,
min_periods=period)` mean of the gains, which carries `i` non-NaN
observations (indices `1 … i`) at bar `i` and is therefore defined exactly
for `period ≤ i < len`. -/
def avg_gain (c : List ℚ) (period : ℕ) (i : ℕ) : Option ℚ :=
  if period ≤ i ∧ i < c.length then ewm_last ((1 : ℚ)/period) ((gains c).take i) else none

/-- `avg_loss`, analogously. -/
def avg_loss (c : List ℚ) (period : ℕ) (i : ℕ) : Option ℚ :=
  if period ≤ i ∧ i < c.length then ewm_last ((1 : ℚ)/period) ((losses c).take i) else none

/-- `Technicals.compute_rsi` at index `i`:
`100 − 100/(1 + avg_gain/avg_loss)`, then overridden to `100` where
`avg_loss == 0` and afterwards to `0` where `avg_gain == 0` (the second
`where` is applied last, so it wins when both averages are zero). -/
def compute_rsi (c : List ℚ) (period : ℕ) (i : ℕ) : Option ℚ :=
  match avg_gain c period i, avg_loss c period i with
  | some g, some l =>
    some (if g = 0 then 0 else if l = 0 then 100 else 100 - 100 / (1 + g / l))
  | _, _ => none

/-! ## Circuit breaker (src/async_client.py)

Timestamps are natural numbers (seconds); `now - last > timeout` with the
truncated subtraction agrees with the Python signed comparison for every
`timeout ≥ 0`. -/

inductive BreakerPhase
  | closed
  | open_
  | half_open
deriving DecidableEq, Repr

structure CircuitBreakerState where
  failures : ℕ := 0
  last_failure_time : Option ℕ := none
  state : BreakerPhase := BreakerPhase.closed
deriving DecidableEq, Repr

/-- `AsyncMoexClient._check_circuit_breaker`: returns whether the request is
allowed together with the updated breaker state. -/
def check_circuit_breaker (timeout : ℕ) (now : ℕ) (s : CircuitBreakerState) :
    Bool × CircuitBreakerState :=
  match s.state with
  | BreakerPhase.open_ =>
    if timeout < now - s.last_failure_time.getD now then
      (true, { s with state := BreakerPhase.half_open })
    else (false, s)
  | BreakerPhase.half_open => (true, s)
  | BreakerPhase.closed => (true, s)

/-- `AsyncMoexClient._record_success`: resets the breaker only out of
`half_open`; a success in the `closed` state leaves the failure count alone. -/
def record_success (s : CircuitBreakerState) : CircuitBreakerState :=
  if s.state = BreakerPhase.half_open then
    { s with state := BreakerPhase.closed, failures := 0 }
  else s

/-- `AsyncMoexClient._record_failure`. -/
def record_failure (threshold : ℕ) (now : ℕ) (s : CircuitBreakerState) :
    CircuitBreakerState :=
  let s' : CircuitBreakerState :=
    { s with failures := s.failures + 1, last_failure_time := some now }
  if threshold ≤ s'.failures then { s' with state := BreakerPhase.open_ } else s'

inductive ReqOutcome
  | success
  | failure
deriving DecidableEq, Repr

/-- One request through `_request_json` as seen by the breaker: the check
gates the network call; when allowed, the eventual outcome is recorded. -/
def breaker_step (threshold timeout : ℕ) (s : CircuitBreakerState)
    (now : ℕ) (outcome : ReqOutcome) : CircuitBreakerState :=
  let r := check_circuit_breaker timeout now s
  if r.1 then
    match outcome with
    | ReqOutcome.success => record_success r.2
    | ReqOutcome.failure => record_failure threshold now r.2
  else r.2

/-- A run of timestamped request outcomes from the initial breaker state. -/
def breaker_run (threshold timeout : ℕ) (events : List (ℕ × ReqOutcome)) :
    CircuitBreakerState :=
  events.foldl (fun s e => breaker_step threshold timeout s e.1 e.2) {}

/-- Length of the trailing run of failures of an event list (the number of
"consecutive failures" at its end). -/
def trailing_failures (events : List (ℕ × ReqOutcome)) : ℕ :=
  (events.reverse.takeWhile fun e => e.2 = ReqOutcome.failure).length

/-! ## Per-signal processing: BacktestRunner.run vs TradingEngine._process_signal

Both orchestrators are driven one signal at a time against the quotes in
force on the trigger bar/iteration; the embeddings below are the respective
signal-processing bodies (src/backtest/runner.py lines 157-252 and
src/core/trading_engine.py lines 271-296), parametrised by the quotes and
the lot size that the surrounding code fetches. -/

structure ExecParams where
  commission_pct_per_side : ℚ
  slippage_pct : ℚ
deriving DecidableEq, Repr

/-- Backtest loop state: the open position, the entry fill's commission
(the field of `entry_trade_meta` the loop consumes on close), and day stats. -/
structure BtState where
  open_pos : Option Position := none
  entry_commission : Option ℚ := none
  day_stats : DayStats := {}
deriving DecidableEq, Repr

/-- The body of `BacktestRunner.run`'s per-signal loop (the trigger-bar
lookup that precedes it is outside this step). -/
def backtest_process_signal (risk : RiskLimits) (execp : ExecParams) (lot_size : ℤ)
    (sig_type : String) (best_bid best_ask : Option ℚ) (st : BtState) : BtState :=
  if sig_type = "BUY" then
    match st.open_pos with
    | some _ => st
    | none =>
      if allow_new_trade risk st.day_stats then
        let inp : ExecutionInput :=
          { ts := 0, side := Side.BUY, best_bid := best_bid, best_ask := best_ask
            lot_size := lot_size, max_position_rub := risk.max_position_rub
            commission_pct_per_side := execp.commission_pct_per_side
            slippage_pct := execp.slippage_pct, desired_position_shares := none }
        match execute inp with
        | none => st
        | some tr =>
          if tr.qty_shares ≤ 0 then st
          else
            let pos := assign_stops_for_long risk
              { entry_price := tr.exec_price, qty_shares := tr.qty_shares }
            { open_pos := some pos
              entry_commission := some tr.commission
              day_stats := { st.day_stats with
                trades_count := st.day_stats.trades_count + 1 } }
      else st
  else if sig_type = "SELL" ∨ sig_type = "CLOSE_LONG" then
    match st.open_pos, st.entry_commission with
    | some pos, some entry_comm =>
      let inp : ExecutionInput :=
        { ts := 0, side := Side.SELL, best_bid := best_bid, best_ask := best_ask
          lot_size := lot_size, max_position_rub := risk.max_position_rub
          commission_pct_per_side := execp.commission_pct_per_side
          slippage_pct := execp.slippage_pct
          desired_position_shares := some pos.qty_shares }
      match execute inp with
      | none => st
      | some tr =>
        if tr.qty_shares ≤ 0 then st
        else
          { open_pos := none
            entry_commission := none
            day_stats := update_day_stats_on_close st.day_stats pos.entry_price
              tr.exec_price pos.qty_shares (entry_comm + tr.commission) }
    | _, _ => st
  else st

/-- Engine session state relevant to signal processing. -/
structure EngineState where
  current_position : Option Position := none
  day_stats : DayStats := {}
deriving DecidableEq, Repr

/-- `TradingEngine._process_signal`: note that the daily-limits gate sits at
the top and so applies to SELL/CLOSE_LONG as well; the opening fill does not
touch `day_stats`; on close only the exit fill's commission is passed to
`update_day_stats_on_close`. -/
def engine_process_signal (risk : RiskLimits) (execp : ExecParams) (lot_size : ℤ)
    (sig_type : String) (bid ask last : Option ℚ) (st : EngineState) : EngineState :=
  if allow_new_trade risk st.day_stats then
    if sig_type = "BUY" then
      match st.current_position with
      | some _ => st
      | none =>
        let last_price := if truthy last then last else ask
        if !truthy ask || !truthy last_price then st
        else
          let inp : ExecutionInput :=
            { ts := 0, side := Side.BUY, best_bid := bid, best_ask := ask
              lot_size := lot_size, max_position_rub := risk.max_position_rub
              commission_pct_per_side := execp.commission_pct_per_side
              slippage_pct := execp.slippage_pct, desired_position_shares := none }
          match execute inp with
          | none => st
          | some tr =>
            { st with current_position := some (assign_stops_for_long risk
                { entry_price := tr.exec_price, qty_shares := tr.qty_shares }) }
    else if sig_type = "SELL" ∨ sig_type = "CLOSE_LONG" then
      match st.current_position with
      | none => st
      | some pos =>
        if !truthy bid then st
        else
          let inp : ExecutionInput :=
            { ts := 0, side := Side.SELL, best_bid := bid, best_ask := ask
              lot_size := lot_size, max_position_rub := risk.max_position_rub
              commission_pct_per_side := execp.commission_pct_per_side
              slippage_pct := execp.slippage_pct
              desired_position_shares := some pos.qty_shares }
          match execute inp with
          | none => st
          | some tr =>
            { current_position := none
              day_stats := update_day_stats_on_close st.day_stats pos.entry_price
                tr.exec_price pos.qty_shares tr.commission }
    else st
  else st

/-! ## Concrete instances used by counterexamples and witnesses -/

/-- BUY request of C4's witness: ask 100, slippage 1%, lot 10, cap 100000. -/
def c4inp : ExecutionInput :=
  { ts := 0, side := Side.BUY, best_bid := none, best_ask := some 100, lot_size := 10
    max_position_rub := 100000, commission_pct_per_side := 0, slippage_pct := 1/100 }

/-- Risk limits of C6's witness: `stop_loss_pct_max = 0.01`,
`take_profit_pct_min = 0.02`, `take_profit_pct_max = 0.02`, `min_rr = 1.5`. -/
def c6risk : RiskLimits :=
  { max_trades_per_day := 10, daily_loss_limit_rub := 1000, stop_loss_pct_max := 1/100
    take_profit_pct_min := 2/100, take_profit_pct_max := 2/100, min_rr := 3/2
    max_position_rub := 100000 }

/-- Series of C1's counterexample: 30 fully-populated candles with strictly
rising highs, flat closes, and no indicator columns attached
(`rsi14`/`vol_sma20`/`macd_hist` missing, as on early bars). -/
def c1df : List Bar := (List.range 30).map fun j =>
  { open_ := some 10, high := some (10 + (j : ℚ)), low := some 9, close := some 10
    volume := some 100, rsi14 := none, vol_sma20 := none, macd_hist := none }

/-- Series of C9's witness: highs 1,2,3,4 with volume 10 above its average 5. -/
def c9df : List Bar :=
  [ { high := some 1, volume := some 10, vol_sma20 := some 5 }
  , { high := some 2, volume := some 10, vol_sma20 := some 5 }
  , { high := some 3, volume := some 10, vol_sma20 := some 5 }
  , { high := some 4, volume := some 10, vol_sma20 := some 5 } ]

/-- Strategy parameters of C9: swing lookback 3, volume filtering enabled. -/
def c9params : StrategyParams := { lookback_swing := 3 }

/-- Closes of C8's counterexample: a flat 15-bar series (all deltas zero). -/
def c8series : List ℚ := List.replicate 15 100

/-- Events of C3's counterexample: four failures, a success (in `closed`,
which does NOT reset the count), then a single further failure. -/
def c3events : List (ℕ × ReqOutcome) :=
  [(0, ReqOutcome.failure), (1, ReqOutcome.failure), (2, ReqOutcome.failure),
   (3, ReqOutcome.failure), (4, ReqOutcome.success), (5, ReqOutcome.failure)]

/-- Risk limits of C2's counterexample: at most 1 trade per day. -/
def c2risk : RiskLimits :=
  { max_trades_per_day := 1, daily_loss_limit_rub := 1000, stop_loss_pct_max := 1/100
    take_profit_pct_min := 2/100, take_profit_pct_max := 2/100, min_rr := 3/2
    max_position_rub := 100000 }

/-- Execution parameters of C2's counterexample: no commission, no slippage. -/
def c2execp : ExecParams := { commission_pct_per_side := 0, slippage_pct := 0 }

/-- Open position of C2's counterexample. -/
def c2pos : Position := { entry_price := 100, qty_shares := 10 }

/-- Day stats of C2's counterexample: the single allowed trade already used. -/
def c2stats : DayStats := { trades_count := 1 }

/-- Risk limits of C10's witness. -/
def c10risk : RiskLimits :=
  { max_trades_per_day := 10, daily_loss_limit_rub := 1000, stop_loss_pct_max := 1/100
    take_profit_pct_min := 2/100, take_profit_pct_max := 2/100, min_rr := 3/2
    max_position_rub := 100000 }

/-- C10 witness after the BUY fill: entry at ask 101 (no slippage), 990
shares, one trade counted. -/
def c10st1 : BtState :=
  backtest_process_signal c10risk ⟨0, 0⟩ 1 "BUY" (some 100) (some 101) {}

/-- C10 witness after the closing SELL fill at bid 95. -/
def c10st2 : BtState :=
  backtest_process_signal c10risk ⟨0, 0⟩ 1 "SELL" (some 95) (some 96) c10st1

/-! ## Helper lemmas -/

/-- Sizing specification: with a positive price, lot size and cap, the pair
returned by `position_value_limit_sizing` is the largest whole-lot share
count whose notional fits the cap. -/
theorem position_value_limit_sizing_spec (p : ℚ) (lot : ℤ) (cap : ℚ)
    (hp : 0 < p) (hlot : 0 < lot) (hcap : 0 < cap) :
    (position_value_limit_sizing (some p) lot cap).2 % lot = 0 ∧
    0 ≤ (position_value_limit_sizing (some p) lot cap).2 ∧
    ((position_value_limit_sizing (some p) lot cap).2 : ℚ) * p ≤ cap ∧
    ∀ m : ℤ, m % lot = 0 → (m : ℚ) * p ≤ cap →
      m ≤ (position_value_limit_sizing (some p) lot cap).2 := by
  have hnot : ¬(p ≤ 0 ∨ lot ≤ 0 ∨ cap ≤ 0) := by
    push_neg
    exact ⟨hp, hlot, hcap⟩
  have hM : (0 : ℤ) ≤ ⌊cap / p⌋ := Int.floor_nonneg.mpr (le_of_lt (div_pos hcap hp))
  have hfd : Int.fdiv ⌊cap / p⌋ lot = ⌊cap / p⌋ / lot := Int.fdiv_eq_ediv _ (le_of_lt hlot)
  have hql : (0 : ℤ) ≤ ⌊cap / p⌋ / lot := Int.ediv_nonneg hM (le_of_lt hlot)
  have hqs : (position_value_limit_sizing (some p) lot cap).2 = ⌊cap / p⌋ / lot * lot := by
    simp only [position_value_limit_sizing, hnot, if_false, hfd, max_eq_right hql]
  rw [hqs]
  refine ⟨Int.mul_emod_left _ _, mul_nonneg hql (le_of_lt hlot), ?_, ?_⟩
  · have h1 : ⌊cap / p⌋ / lot * lot ≤ ⌊cap / p⌋ := Int.ediv_mul_le _ (ne_of_gt hlot)
    have h2 : ((⌊cap / p⌋ / lot * lot : ℤ) : ℚ) ≤ cap / p :=
      le_trans (by exact_mod_cast h1) (Int.floor_le _)
    calc ((⌊cap / p⌋ / lot * lot : ℤ) : ℚ) * p ≤ cap / p * p := by
          exact mul_le_mul_of_nonneg_right h2 (le_of_lt hp)
      _ = cap := div_mul_cancel₀ cap (ne_of_gt hp)
  · intro m hm hle
    obtain ⟨k, hk⟩ : lot ∣ m := Int.dvd_of_emod_eq_zero hm
    have hmM : m ≤ ⌊cap / p⌋ := Int.le_floor.mpr ((le_div_iff₀ hp).mpr hle)
    have hk' : k ≤ ⌊cap / p⌋ / lot := by
      rw [Int.le_ediv_iff_mul_le hlot]
      calc k * lot = m := by rw [hk, mul_comm]
        _ ≤ ⌊cap / p⌋ := hmM
    calc m = k * lot := by rw [hk, mul_comm]
      _ ≤ ⌊cap / p⌋ / lot * lot := mul_le_mul_of_nonneg_right hk' (le_of_lt hlot)

/-- `execute` never returns a trade of non-positive quantity:
the `qty_shares <= 0` guard maps such sizings to "no trade". -/
theorem execute_qty_pos (inp : ExecutionInput) (reason : String) (t : ExecutedTrade)
    (ht : execute inp reason = some t) : 0 < t.qty_shares := by
  unfold execute at ht
  rcases hc : calc_exec_price inp.side inp.best_bid inp.best_ask inp.slippage_pct with
    _ | p
  · rw [hc] at ht
    simp at ht
  · rw [hc] at ht
    simp only [] at ht
    by_cases hq : (execute_sizing inp p).2 ≤ 0
    · simp [hq] at ht
    · simp only [hq, if_false, Option.some.injEq] at ht
      rw [← ht]
      exact lt_of_not_le hq

/-! ## Claim theorems -/

/-- C4: for every ExecutionRequest without a desired share count and with
positive best_ask, lot_size and cap, a returned BUY trade has
`exec_price = best_ask * (1 + slippage_pct)` and `qty_shares` equal to the
largest multiple of `lot_size` whose notional does not exceed the maximum
position value (the witness instantiates best_ask=100, slippage=0.01 and
obtains a fill at exactly 101). -/
theorem c4_buy_exec_price_and_sizing (inp : ExecutionInput) (a : ℚ) (t : ExecutedTrade)
    (hside : inp.side = Side.BUY) (hask : inp.best_ask = some a) (ha : 0 < a)
    (hlot : 0 < inp.lot_size) (hcap : 0 < inp.max_position_rub)
    (hdes : inp.desired_position_shares = none)
    (ht : execute inp = some t) :
    t.exec_price = a * (1 + inp.slippage_pct) ∧
    t.qty_shares % inp.lot_size = 0 ∧
    (t.qty_shares : ℚ) * t.exec_price ≤ inp.max_position_rub ∧
    ∀ m : ℤ, m % inp.lot_size = 0 → (m : ℚ) * t.exec_price ≤ inp.max_position_rub →
      m ≤ t.qty_shares := by
  have hc : calc_exec_price inp.side inp.best_bid inp.best_ask inp.slippage_pct
      = some (a * (1 + inp.slippage_pct)) := by
    rw [hside, hask]
    simp [calc_exec_price, not_le.mpr ha]
  set p := a * (1 + inp.slippage_pct) with hpdef
  have hs : execute_sizing inp p
      = position_value_limit_sizing (some p) inp.lot_size inp.max_position_rub := by
    simp [execute_sizing, hdes]
  unfold execute at ht
  rw [hc] at ht
  simp only [] at ht
  by_cases hq : (execute_sizing inp p).2 ≤ 0
  · simp [hq] at ht
  · simp only [hq, if_false, Option.some.injEq] at ht
    have hp : 0 < p := by
      by_contra hple
      have : position_value_limit_sizing (some p) inp.lot_size inp.max_position_rub
          = (0, 0) := by
        simp [position_value_limit_sizing, Or.inl (not_lt.mp hple)]
      rw [hs, this] at hq
      exact hq le_rfl
    obtain ⟨h1, _h2, h3, h4⟩ := position_value_limit_sizing_spec p inp.lot_size
      inp.max_position_rub hp hlot hcap
    have hqe : t.qty_shares = (execute_sizing inp p).2 := by rw [← ht]
    have hpe : t.exec_price = p := by rw [← ht]
    rw [hqe, hpe, hs]
    exact ⟨rfl, h1, h3, h4⟩

set_option maxRecDepth 8000 in
/-- C4 witness: ask 100, slippage 1%, lot 10, cap 100000 — the trade fills at
exactly 101 with 990 shares, the largest lot multiple worth at most 100000. -/
theorem c4_buy_exec_price_and_sizing_witness :
    (execute c4inp).map ExecutedTrade.exec_price = some 101 ∧
    ∃ t, execute c4inp = some t ∧
      t.exec_price = 100 * (1 + c4inp.slippage_pct) ∧
      t.qty_shares % c4inp.lot_size = 0 ∧
      (t.qty_shares : ℚ) * t.exec_price ≤ c4inp.max_position_rub ∧
      ∀ m : ℤ, m % c4inp.lot_size = 0 → (m : ℚ) * t.exec_price ≤ c4inp.max_position_rub →
        m ≤ t.qty_shares := by
  have hsome : (execute c4inp).isSome = true := by with_unfolding_all decide
  obtain ⟨t, ht⟩ := Option.isSome_iff_exists.mp hsome
  obtain ⟨he, h1, h2, h3⟩ := c4_buy_exec_price_and_sizing c4inp 100 t rfl rfl
    (by norm_num) (by norm_num [c4inp]) (by norm_num [c4inp]) rfl ht
  constructor
  · rw [ht, Option.map_some']
    rw [he]
    norm_num [c4inp]
  · exact ⟨t, ht, he, h1, h2, h3⟩

/-- C5: for every request (with a positive lot size — a zero lot size makes
the Python code raise instead), `execute` returns no trade exactly when the
relevant quote side is missing/non-positive or the sizing step yields zero
shares; for a new entry "zero shares" means no positive whole-lot multiple
fits the cap; and every returned trade has `qty_shares > 0`. -/
theorem c5_no_fill_characterization (inp : ExecutionInput) (hlot : 0 < inp.lot_size) :
    (∀ t, execute inp = some t → 0 < t.qty_shares) ∧
    (execute inp = none ↔
      calc_exec_price inp.side inp.best_bid inp.best_ask inp.slippage_pct = none ∨
      ∃ p, calc_exec_price inp.side inp.best_bid inp.best_ask inp.slippage_pct = some p ∧
        (execute_sizing inp p).2 ≤ 0) ∧
    (calc_exec_price inp.side inp.best_bid inp.best_ask inp.slippage_pct = none ↔
      ((inp.side = Side.BUY ∧ ∀ a, inp.best_ask = some a → a ≤ 0) ∨
       (inp.side = Side.SELL ∧ ∀ b, inp.best_bid = some b → b ≤ 0))) ∧
    (inp.desired_position_shares = none →
      ∀ p, 0 < p →
        ((execute_sizing inp p).2 ≤ 0 ↔
          ¬∃ m : ℤ, 0 < m ∧ m % inp.lot_size = 0 ∧ (m : ℚ) * p ≤ inp.max_position_rub)) := by
  refine ⟨fun t ht => execute_qty_pos inp "" t ht, ?_, ?_, ?_⟩
  · unfold execute
    rcases hc : calc_exec_price inp.side inp.best_bid inp.best_ask inp.slippage_pct with
      _ | p
    · simp
    · simp only [Option.some.injEq]
      constructor
      · intro hn
        by_cases hq : (execute_sizing inp p).2 ≤ 0
        · exact Or.inr ⟨p, rfl, hq⟩
        · simp [hq] at hn
      · rintro (h | ⟨p', hp', hq⟩)
        · exact absurd h (Option.some_ne_none p)
        · obtain rfl : p = p' := Option.some.injEq .. ▸ hp'
          simp [hq]
  · unfold calc_exec_price
    rcases hside : inp.side with _ | _
    · rcases hask : inp.best_ask with _ | a
      · simp
      · by_cases ha : a ≤ 0
        · simp only [ha, if_true]
          constructor
          · intro _
            refine Or.inl ⟨by simp, fun a' ha' => ?_⟩
            obtain rfl : a = a' := Option.some.injEq .. ▸ ha'
            exact ha
          · intro _
            trivial
        · simp only [ha, if_false]
          constructor
          · intro h
            exact absurd h (Option.some_ne_none _)
          · rintro (⟨_, h⟩ | ⟨h, _⟩)
            · exact absurd (h a rfl) ha
            · exact absurd h (by simp)
    · rcases hbid : inp.best_bid with _ | b
      · simp
      · by_cases hb : b ≤ 0
        · simp only [hb, if_true]
          constructor
          · intro _
            refine Or.inr ⟨by simp, fun b' hb' => ?_⟩
            obtain rfl : b = b' := Option.some.injEq .. ▸ hb'
            exact hb
          · intro _
            trivial
        · simp only [hb, if_false]
          constructor
          · intro h
            exact absurd h (Option.some_ne_none _)
          · rintro (⟨h, _⟩ | ⟨_, h⟩)
            · exact absurd h (by simp)
            · exact absurd (h b rfl) hb
  · intro hdes p hp
    have hs : execute_sizing inp p
        = position_value_limit_sizing (some p) inp.lot_size inp.max_position_rub := by
      simp [execute_sizing, hdes]
    rw [hs]
    by_cases hcap : inp.max_position_rub ≤ 0
    · have h0 : position_value_limit_sizing (some p) inp.lot_size inp.max_position_rub
          = (0, 0) := by
        simp [position_value_limit_sizing, Or.inr (Or.inr hcap)]
      rw [h0]
      simp only [le_refl, true_iff]
      rintro ⟨m, hm, _, hle⟩
      have : (0 : ℚ) < (m : ℚ) * p := mul_pos (by exact_mod_cast hm) hp
      linarith
    · push_neg at hcap
      obtain ⟨h1, h2, h3, h4⟩ := position_value_limit_sizing_spec p inp.lot_size
        inp.max_position_rub hp hlot hcap
      constructor
      · rintro hq ⟨m, hm, hmod, hle⟩
        exact absurd (le_trans (h4 m hmod hle) hq) (not_le.mpr hm)
      · intro hno
        by_contra hq
        push_neg at hq
        exact hno ⟨_, hq, h1, h3⟩

/-- C5 witness at the C4 request (lot size 10): instantiates the returned-trade
positivity and the no-fill characterization at a concrete input. -/
theorem c5_no_fill_characterization_witness :
    (0 : ℤ) < c4inp.lot_size ∧
    (execute c4inp = none ↔
      calc_exec_price c4inp.side c4inp.best_bid c4inp.best_ask c4inp.slippage_pct = none ∨
      ∃ p, calc_exec_price c4inp.side c4inp.best_bid c4inp.best_ask c4inp.slippage_pct
          = some p ∧ (execute_sizing c4inp p).2 ≤ 0) :=
  ⟨by norm_num [c4inp], (c5_no_fill_characterization c4inp (by norm_num [c4inp])).2.1⟩

/-- C6: `assign_stops_for_long` sets
`sl_price = entry * (1 - stop_loss_pct_max)` and
`tp_price = entry * (1 + min (max take_profit_pct_min (min_rr * stop_loss_pct_max))
take_profit_pct_max)`, and with positive entry price and positive configured
percentages the assigned prices straddle the entry price. -/
theorem c6_assign_stops_for_long (risk : RiskLimits) (pos : Position)
    (hentry : 0 < pos.entry_price) (hsl : 0 < risk.stop_loss_pct_max)
    (htpmin : 0 < risk.take_profit_pct_min) (htpmax : 0 < risk.take_profit_pct_max) :
    (assign_stops_for_long risk pos).sl_price
      = some (pos.entry_price * (1 - risk.stop_loss_pct_max)) ∧
    (assign_stops_for_long risk pos).tp_price
      = some (pos.entry_price * (1 + min (max risk.take_profit_pct_min
          (risk.min_rr * risk.stop_loss_pct_max)) risk.take_profit_pct_max)) ∧
    pos.entry_price * (1 - risk.stop_loss_pct_max) < pos.entry_price ∧
    pos.entry_price < pos.entry_price * (1 + min (max risk.take_profit_pct_min
        (risk.min_rr * risk.stop_loss_pct_max)) risk.take_profit_pct_max) := by
  refine ⟨rfl, rfl, ?_, ?_⟩
  · nlinarith
  · have htp : 0 < min (max risk.take_profit_pct_min
        (risk.min_rr * risk.stop_loss_pct_max)) risk.take_profit_pct_max :=
      lt_min (lt_of_lt_of_le htpmin (le_max_left _ _)) htpmax
    nlinarith

/-- C6 witness: with the claim's example percentages the take-profit percent is
`max(0.02, 1.5 * 0.01) = 0.02`, so entry 100 gets stops 99 and 102. -/
theorem c6_assign_stops_for_long_witness :
    (assign_stops_for_long c6risk ⟨100, 10, none, none⟩).sl_price = some 99 ∧
    (assign_stops_for_long c6risk ⟨100, 10, none, none⟩).tp_price = some 102 := by
  obtain ⟨h1, h2, _, _⟩ := c6_assign_stops_for_long c6risk ⟨100, 10, none, none⟩
    (by norm_num) (by norm_num [c6risk]) (by norm_num [c6risk]) (by norm_num [c6risk])
  refine ⟨?_, ?_⟩
  · rw [h1]
    norm_num [c6risk]
  · rw [h2]
    norm_num [c6risk]

/-- C7: `update_day_stats_on_close` adds
`pnl = (exit - entry) * qty - commission` to the realized PnL, increments the
trade counter by one, and adds `|pnl|` to the realized loss exactly when the
PnL is negative; entry=100, exit=95, qty=10, commission=5 gives pnl = -55. -/
theorem c7_update_day_stats_on_close (stats : DayStats) (entry_price exit_price : ℚ)
    (qty_shares : ℤ) (commission_rub : ℚ) :
    (update_day_stats_on_close stats entry_price exit_price qty_shares
        commission_rub).realized_pnl_rub
      = stats.realized_pnl_rub
        + ((exit_price - entry_price) * (qty_shares : ℚ) - commission_rub) ∧
    (update_day_stats_on_close stats entry_price exit_price qty_shares
        commission_rub).trades_count = stats.trades_count + 1 ∧
    (update_day_stats_on_close stats entry_price exit_price qty_shares
        commission_rub).realized_loss_rub
      = (if (exit_price - entry_price) * (qty_shares : ℚ) - commission_rub < 0
          then stats.realized_loss_rub
            + |(exit_price - entry_price) * (qty_shares : ℚ) - commission_rub|
          else stats.realized_loss_rub) ∧
    (update_day_stats_on_close {} 100 95 10 5).realized_pnl_rub = -55 ∧
    (update_day_stats_on_close {} 100 95 10 5).realized_loss_rub = 55 ∧
    (update_day_stats_on_close {} 100 95 10 5).trades_count = 1 := by
  refine ⟨rfl, rfl, rfl, ?_, ?_, rfl⟩
  · show (0 : ℚ) + ((95 - 100) * ((10 : ℤ) : ℚ) - 5) = -55
    norm_num
  · show (if ((95 : ℚ) - 100) * ((10 : ℤ) : ℚ) - 5 < 0
        then (0 : ℚ) + |((95 : ℚ) - 100) * ((10 : ℤ) : ℚ) - 5| else 0) = 55
    norm_num

/-- C1 counterexample: on a 30-bar series (exactly `min_bars_for_indicators`
long, so the length guard passes) `generate_signals` already emits its first
signal at bar index 1 — bars earlier than index 30 are NOT skipped. -/
theorem c1_counterexample :
    (generate_signals {} c1df).head?.map Signal.ts = some 1 ∧
    c1df.length = ({} : StrategyParams).min_bars_for_indicators ∧
    (1 : ℕ) < 30 := by
  refine ⟨?_, ?_, by norm_num⟩ <;> with_unfolding_all decide

/-- C1 amended: the `min_bars_for_indicators` guard only applies to the whole
series — a series shorter than it produces no signals at all — and otherwise
evaluation starts from bar index 1 (not from bar `min_bars_for_indicators`):
every emitted signal has `1 ≤ ts < length`. -/
theorem c1_amended_min_bars_guard (p : StrategyParams) (df : List Bar) :
    (df.length < p.min_bars_for_indicators → generate_signals p df = []) ∧
    (∀ s ∈ generate_signals p df, 1 ≤ s.ts ∧ s.ts < df.length) := by
  constructor
  · intro hshort
    simp [generate_signals, hshort]
  · intro s hs
    unfold generate_signals at hs
    by_cases hshort : df.length < p.min_bars_for_indicators
    · simp [hshort] at hs
    · simp only [hshort, if_false] at hs
      rw [List.mem_filterMap] at hs
      obtain ⟨i, hi, hmap⟩ := hs
      rw [List.mem_range'_1] at hi
      rcases hbc : bar_signal_core p df i with _ | tpr
      · rw [hbc] at hmap
        simp at hmap
      · rw [hbc] at hmap
        simp only [Option.map_some', Option.some.injEq] at hmap
        have hts : s.ts = i := by rw [← hmap]
        rw [hts]
        omega

/-- C1 amended witness: a series shorter than the default 30-bar minimum
yields no signals. -/
theorem c1_amended_min_bars_guard_witness :
    generate_signals ({} : StrategyParams) [] = [] :=
  (c1_amended_min_bars_guard {} []).1 (by norm_num)

/-- C9: with volume filtering enabled and lookback 3, the breakout-BUY
condition of `generate_signals` holds at bar `i ≥ 3` exactly when the bar's
high exceeds `max (high[i-3..i-1])` (the rolling maximum of the trailing
window shifted back one bar) and the bar's volume exceeds its moving
average. -/
theorem c9_breakout_buy_characterization (p : StrategyParams) (df : List Bar) (i : ℕ)
    (hlb : p.lookback_swing = 3) (hvf : p.volume_filter = true)
    (h3 : 3 ≤ i) (a b c h v sma : ℚ)
    (ha : highAt df (i-3) = some a) (hb : highAt df (i-2) = some b)
    (hc : highAt df (i-1) = some c) (hh : highAt df i = some h)
    (hv : (df.get? i).bind Bar.volume = some v)
    (hs : (df.get? i).bind Bar.vol_sma20 = some sma) :
    breakout_buy_at p df i = true ↔ (max (max a b) c < h ∧ sma < v) := by
  have hi0 : i ≠ 0 := by omega
  have hswing : swing_high_prev p df i = some (max (max a b) c) := by
    unfold swing_high_prev
    rw [if_neg hi0, hlb]
    have hmin : min 3 i = 3 := min_eq_left h3
    rw [hmin]
    have hr : List.range' (i - 3) 3 = [i - 3, i - 2, i - 1] := by
      have e1 : i - 3 + 1 = i - 2 := by omega
      have e2 : i - 2 + 1 = i - 1 := by omega
      simp [List.range', e1, e2]
    rw [hr]
    simp [omax, ha, hb, hc]
  have hvol : vol_ok_at p df i = decide (sma < v) := by
    unfold vol_ok_at
    rw [hvf]
    simp only [if_true, hv, hs]
  unfold breakout_buy_at
  rw [hh, hswing, hvol]
  simp

/-- C9 witness: on the rising-high series the breakout condition at bar 3
reduces to `max(1,2,3) < 4` together with the volume check `5 < 10`. -/
theorem c9_breakout_buy_characterization_witness :
    breakout_buy_at c9params c9df 3 = true ↔
      (max (max (1 : ℚ) 2) 3 < 4 ∧ (5 : ℚ) < 10) :=
  c9_breakout_buy_characterization c9params c9df 3 rfl rfl (by norm_num)
    1 2 3 4 10 5 rfl rfl rfl rfl rfl rfl

/-- The exponential smoothing recursion keeps non-negative values
non-negative for `0 ≤ α ≤ 1`. -/
theorem ewmRec_nonneg (α : ℚ) (hα0 : 0 ≤ α) (hα1 : α ≤ 1) :
    ∀ (xs : List ℚ) (y : ℚ), 0 ≤ y → (∀ x ∈ xs, 0 ≤ x) → 0 ≤ ewmRec α y xs := by
  intro xs
  induction xs with
  | nil => intro y hy _; exact hy
  | cons x xs ih =>
    intro y hy hxs
    apply ih
    · have h1 : 0 ≤ (1 - α) * y := mul_nonneg (by linarith) hy
      have h2 : 0 ≤ α * x := mul_nonneg hα0 (hxs x (List.mem_cons_self x xs))
      linarith
    · exact fun z hz => hxs z (List.mem_cons_of_mem x hz)

/-- Every element of `gains c` is non-negative. -/
theorem gains_nonneg (c : List ℚ) : ∀ x ∈ gains c, 0 ≤ x := by
  intro x hx
  obtain ⟨d, _, rfl⟩ := List.mem_map.mp hx
  exact le_max_right d 0

/-- Every element of `losses c` is non-negative. -/
theorem losses_nonneg (c : List ℚ) : ∀ x ∈ losses c, 0 ≤ x := by
  intro x hx
  obtain ⟨d, _, rfl⟩ := List.mem_map.mp hx
  exact le_max_right (-d) 0

/-- A defined smoothed average of a non-negative series is non-negative. -/
theorem ewm_last_nonneg (α : ℚ) (hα0 : 0 ≤ α) (hα1 : α ≤ 1) (xs : List ℚ)
    (hxs : ∀ x ∈ xs, 0 ≤ x) (g : ℚ) (hg : ewm_last α xs = some g) : 0 ≤ g := by
  cases xs with
  | nil => simp [ewm_last] at hg
  | cons x xs =>
    simp only [ewm_last, Option.some.injEq] at hg
    rw [← hg]
    exact ewmRec_nonneg α hα0 hα1 xs x (hxs x (List.mem_cons_self x xs))
      fun z hz => hxs z (List.mem_cons_of_mem x hz)

/-- Smoothing factor bounds for `α = 1/period`, `period ≥ 1`. -/
theorem one_div_period_bounds (period : ℕ) (hper : 1 ≤ period) :
    0 ≤ (1 : ℚ)/period ∧ (1 : ℚ)/period ≤ 1 := by
  have hp : (1 : ℚ) ≤ (period : ℚ) := by exact_mod_cast hper
  constructor
  · positivity
  · rw [div_le_one (by linarith)]
    exact hp

/-- A defined `avg_gain` value is non-negative. -/
theorem avg_gain_nonneg (c : List ℚ) (period i : ℕ) (hper : 1 ≤ period) (g : ℚ)
    (hg : avg_gain c period i = some g) : 0 ≤ g := by
  unfold avg_gain at hg
  by_cases hcond : period ≤ i ∧ i < c.length
  · rw [if_pos hcond] at hg
    obtain ⟨hα0, hα1⟩ := one_div_period_bounds period hper
    exact ewm_last_nonneg _ hα0 hα1 _
      (fun x hx => gains_nonneg c x (List.mem_of_mem_take hx)) g hg
  · rw [if_neg hcond] at hg
    exact absurd hg (Option.some_ne_none g).symm.elim

/-- A defined `avg_loss` value is non-negative. -/
theorem avg_loss_nonneg (c : List ℚ) (period i : ℕ) (hper : 1 ≤ period) (l : ℚ)
    (hl : avg_loss c period i = some l) : 0 ≤ l := by
  unfold avg_loss at hl
  by_cases hcond : period ≤ i ∧ i < c.length
  · rw [if_pos hcond] at hl
    obtain ⟨hα0, hα1⟩ := one_div_period_bounds period hper
    exact ewm_last_nonneg _ hα0 hα1 _
      (fun x hx => losses_nonneg c x (List.mem_of_mem_take hx)) l hl
  · rw [if_neg hcond] at hl
    exact absurd hl (Option.some_ne_none l).symm.elim

/-- C8 counterexample: on a flat series the smoothed average loss is exactly
zero at index 14 (period 14) yet the RSI value is 0, not 100 — the
`avg_gain == 0` override is applied after the `avg_loss == 0` one. -/
theorem c8_counterexample :
    avg_loss c8series 14 14 = some 0 ∧
    compute_rsi c8series 14 14 = some 0 ∧
    (0 : ℚ) ≠ 100 := by
  refine ⟨?_, ?_, by norm_num⟩ <;> with_unfolding_all decide

/-- C8 amended: every defined RSI value lies in [0, 100]; when the smoothed
average loss is zero and the smoothed average gain is NOT also zero the value
is 100; whenever the smoothed average gain is zero the value is 0 (also when
the average loss is zero simultaneously). -/
theorem c8_amended_rsi_range (c : List ℚ) (period i : ℕ) (hper : 1 ≤ period) (v : ℚ)
    (hv : compute_rsi c period i = some v) :
    (0 ≤ v ∧ v ≤ 100) ∧
    (avg_loss c period i = some 0 → avg_gain c period i ≠ some 0 → v = 100) ∧
    (avg_gain c period i = some 0 → v = 0) := by
  unfold compute_rsi at hv
  rcases hg : avg_gain c period i with _ | g
  · rw [hg] at hv
    simp at hv
  · rcases hl : avg_loss c period i with _ | l
    · rw [hg, hl] at hv
      simp at hv
    · rw [hg, hl] at hv
      simp only [Option.some.injEq] at hv
      have hg0 : 0 ≤ g := avg_gain_nonneg c period i hper g hg
      have hl0 : 0 ≤ l := avg_loss_nonneg c period i hper l hl
      by_cases hgz : g = 0
      · rw [if_pos hgz] at hv
        refine ⟨⟨by rw [← hv], by rw [← hv]; norm_num⟩, ?_, fun _ => hv.symm⟩
        intro _ hgne
        exact absurd (by rw [hgz]) hgne
      · rw [if_neg hgz] at hv
        by_cases hlz : l = 0
        · rw [if_pos hlz] at hv
          refine ⟨⟨by rw [← hv]; norm_num, by rw [← hv]⟩, fun _ _ => hv.symm, ?_⟩
          intro hgz'
          exact absurd (Option.some.inj hgz') hgz
        · rw [if_neg hlz] at hv
          have hgpos : 0 < g := lt_of_le_of_ne hg0 (Ne.symm hgz)
          have hlpos : 0 < l := lt_of_le_of_ne hl0 (Ne.symm hlz)
          have hrs : 0 < g / l := div_pos hgpos hlpos
          have hden : (1 : ℚ) < 1 + g / l := by linarith
          have hfrac_pos : 0 < 100 / (1 + g / l) := by positivity
          have hfrac_lt : 100 / (1 + g / l) < 100 := by
            rw [div_lt_iff₀ (by linarith)]
            nlinarith
          refine ⟨⟨by rw [← hv]; linarith, by rw [← hv]; linarith⟩, ?_, ?_⟩
          · intro hlz' _
            exact absurd (Option.some.inj hlz') hlz
          · intro hgz'
            exact absurd (Option.some.inj hgz') hgz

/-- C8 amended witness: for the two-bar series [100, 101] with period 1 the
RSI at index 1 is 100 (average loss zero, average gain nonzero). -/
theorem c8_amended_rsi_range_witness :
    ((0 : ℚ) ≤ 100 ∧ (100 : ℚ) ≤ 100) ∧
    (avg_loss [100, 101] 1 1 = some 0 → avg_gain [100, 101] 1 1 ≠ some 0 →
      (100 : ℚ) = 100) ∧
    (avg_gain [100, 101] 1 1 = some 0 → (100 : ℚ) = 0) :=
  c8_amended_rsi_range [100, 101] 1 1 (by norm_num) 100 (by with_unfolding_all decide)

/-- C3 counterexample: with the constructor defaults (threshold 5, timeout
60 s) the breaker is `open` after F,F,F,F,S,F although only 1 consecutive
failure precedes the opening — a success in the `closed` state does not
reset the failure counter, so the threshold is not over consecutive
failures. -/
theorem c3_counterexample :
    (breaker_run 5 60 c3events).state = BreakerPhase.open_ ∧
    trailing_failures c3events = 1 ∧ (1 : ℕ) < 5 := by
  refine ⟨?_, ?_, by norm_num⟩ <;> with_unfolding_all decide

/-- One breaker step preserves the invariant "in `half_open` or `open`,
the failure count has reached the threshold". -/
theorem breaker_step_inv (th t : ℕ) (s : CircuitBreakerState)
    (hs : (s.state = BreakerPhase.half_open ∨ s.state = BreakerPhase.open_) →
      th ≤ s.failures) (now : ℕ) (o : ReqOutcome) :
    ((breaker_step th t s now o).state = BreakerPhase.half_open ∨
      (breaker_step th t s now o).state = BreakerPhase.open_) →
      th ≤ (breaker_step th t s now o).failures := by
  intro hres
  rcases s with ⟨f, lft, ph⟩
  rcases ph <;> rcases o <;>
    simp only [breaker_step, check_circuit_breaker, record_success, record_failure,
      if_true, if_false] at hres ⊢ <;>
    first
      | (rcases hres with h | h <;> simp at h)
      | (split_ifs at hres ⊢ <;> simp_all <;> omega)

/-- The invariant holds along every run from the initial breaker state. -/
theorem breaker_run_inv (th t : ℕ) (events : List (ℕ × ReqOutcome)) :
    ((breaker_run th t events).state = BreakerPhase.half_open ∨
      (breaker_run th t events).state = BreakerPhase.open_) →
      th ≤ (breaker_run th t events).failures := by
  have haux : ∀ (evts : List (ℕ × ReqOutcome)) (s : CircuitBreakerState),
      ((s.state = BreakerPhase.half_open ∨ s.state = BreakerPhase.open_) →
        th ≤ s.failures) →
      ((evts.foldl (fun s e => breaker_step th t s e.1 e.2) s).state
          = BreakerPhase.half_open ∨
        (evts.foldl (fun s e => breaker_step th t s e.1 e.2) s).state
          = BreakerPhase.open_) →
        th ≤ (evts.foldl (fun s e => breaker_step th t s e.1 e.2) s).failures := by
    intro evts
    induction evts with
    | nil => intro s hs; exact hs
    | cons e rest ih =>
      intro s hs
      exact ih _ (breaker_step_inv th t s hs e.1 e.2)
  exact haux events {} (fun hcon => by rcases hcon with h | h <;> simp at h)

/-- C3 amended: the breaker satisfies the three-state machine except that
the failure count is only reset by a successful `half_open` trial (never by
a success in `closed`), so the state becomes `open` when the failures
recorded since the last reset — not necessarily consecutive — reach the
threshold.  In `open`, requests within the timeout are rejected without a
network call; once the timeout has strictly elapsed one trial is allowed and
the state moves to `half_open`; a `half_open` success returns to `closed`
with the count reset; a `half_open` failure returns to `open` (the failure
count having reached the threshold on every reachable `half_open` state). -/
theorem c3_amended_circuit_breaker (threshold timeout now : ℕ) (s : CircuitBreakerState) :
    (s.state = BreakerPhase.open_ → now - s.last_failure_time.getD now ≤ timeout →
      check_circuit_breaker timeout now s = (false, s)) ∧
    (s.state = BreakerPhase.open_ → timeout < now - s.last_failure_time.getD now →
      check_circuit_breaker timeout now s = (true, { s with state := BreakerPhase.half_open })) ∧
    (s.state = BreakerPhase.half_open → check_circuit_breaker timeout now s = (true, s)) ∧
    (s.state = BreakerPhase.half_open →
      record_success s = { s with state := BreakerPhase.closed, failures := 0 }) ∧
    (s.state = BreakerPhase.closed → record_success s = s) ∧
    ((record_failure threshold now s).state = BreakerPhase.open_ ↔
      threshold ≤ s.failures + 1 ∨ s.state = BreakerPhase.open_) ∧
    (∀ events, (breaker_run threshold timeout events).state = BreakerPhase.half_open →
      threshold ≤ (breaker_run threshold timeout events).failures) ∧
    (s.state = BreakerPhase.half_open → threshold ≤ s.failures →
      (record_failure threshold now s).state = BreakerPhase.open_) := by
  refine ⟨?_, ?_, ?_, ?_, ?_, ?_, ?_, ?_⟩
  · intro hst hle
    unfold check_circuit_breaker
    rw [hst]
    simp [not_lt.mpr hle]
  · intro hst hlt
    unfold check_circuit_breaker
    rw [hst]
    simp [hlt]
  · intro hst
    unfold check_circuit_breaker
    rw [hst]
  · intro hst
    unfold record_success
    rw [if_pos hst]
  · intro hst
    unfold record_success
    rw [if_neg (by rw [hst]; simp)]
  · unfold record_failure
    by_cases hth : threshold ≤ s.failures + 1
    · simp [hth]
    · simp [hth]
  · intro events hhalf
    exact breaker_run_inv threshold timeout events (Or.inl hhalf)
  · intro _ hth
    unfold record_failure
    rw [if_pos (by omega : threshold ≤ s.failures + 1)]

/-- C3 witness: an `open` breaker (5 failures, last at t=0) probed at t=61
with timeout 60 admits exactly one trial and moves to `half_open`. -/
theorem c3_amended_circuit_breaker_witness :
    check_circuit_breaker 60 61 ⟨5, some 0, BreakerPhase.open_⟩ =
      (true, ⟨5, some 0, BreakerPhase.half_open⟩) :=
  (c3_amended_circuit_breaker 5 60 61 ⟨5, some 0, BreakerPhase.open_⟩).2.1 rfl
    (by norm_num)

/-- A BUY cannot fill when the ask is falsy (missing or zero). -/
theorem execute_buy_none_of_ask_falsy (inp : ExecutionInput) (hside : inp.side = Side.BUY)
    (h : truthy inp.best_ask = false) : execute inp = none := by
  have hc : calc_exec_price inp.side inp.best_bid inp.best_ask inp.slippage_pct = none := by
    rw [hside]
    rcases hask : inp.best_ask with _ | a
    · rfl
    · rw [hask] at h
      have ha : a = 0 := by simpa [truthy] using h
      rw [ha]
      simp [calc_exec_price]
  unfold execute
  rw [hc]

/-- A SELL cannot fill when the bid is falsy (missing or zero). -/
theorem execute_sell_none_of_bid_falsy (inp : ExecutionInput) (hside : inp.side = Side.SELL)
    (h : truthy inp.best_bid = false) : execute inp = none := by
  have hc : calc_exec_price inp.side inp.best_bid inp.best_ask inp.slippage_pct = none := by
    rw [hside]
    rcases hbid : inp.best_bid with _ | b
    · rfl
    · rw [hbid] at h
      have hb : b = 0 := by simpa [truthy] using h
      rw [hb]
      simp [calc_exec_price]
  unfold execute
  rw [hc]

/-- C2 counterexample: with the daily trade limit exhausted and a position
open, a SELL signal closes the position in `BacktestRunner.run` but is
dropped by `TradingEngine._process_signal` (whose `allow_new_trade` gate sits
above the SELL branch), so the two orchestrators' resulting positions
disagree. -/
theorem c2_counterexample :
    (backtest_process_signal c2risk c2execp 1 "SELL" (some 95) (some 96)
        ⟨some c2pos, some 0, c2stats⟩).open_pos = none ∧
    (engine_process_signal c2risk c2execp 1 "SELL" (some 95) (some 96) (some 95)
        ⟨some c2pos, c2stats⟩).current_position = some c2pos ∧
    some c2pos ≠ (none : Option Position) := by
  refine ⟨?_, ?_, by simp⟩ <;> with_unfolding_all decide

/-- C2 amended: when the daily-limits gate admits (`allow_new_trade` true)
and the backtest's entry metadata is in sync with its position, the live
engine's position transition on any signal coincides with the backtest
runner's: BUY ignored while a position is open and gated identically, a fill
opening the same stop-assigned position, SELL/CLOSE_LONG ignored while flat
and otherwise closing on the same fill.  (The day-stats updates deliberately
differ: the engine gates every signal type through `allow_new_trade`, never
counts the opening fill in `trades_count`, and charges only the exit-side
commission — see the counterexample.) -/
theorem c2_amended_position_refinement (risk : RiskLimits) (execp : ExecParams)
    (lot_size : ℤ) (sig_type : String) (bid ask last : Option ℚ)
    (p : Option Position) (ec : Option ℚ) (stats : DayStats)
    (hsync : p.isSome = ec.isSome)
    (hallow : allow_new_trade risk stats = true) :
    (engine_process_signal risk execp lot_size sig_type bid ask last
        ⟨p, stats⟩).current_position
      = (backtest_process_signal risk execp lot_size sig_type bid ask
        ⟨p, ec, stats⟩).open_pos := by
  unfold engine_process_signal backtest_process_signal
  simp only [hallow, if_true]
  by_cases hbuy : sig_type = "BUY"
  · subst hbuy
    simp only [if_pos rfl]
    cases p with
    | some pos => rfl
    | none =>
      simp only []
      by_cases hask : truthy ask
      · have hlast : truthy (if truthy last then last else ask) = true := by
          by_cases hl : truthy last
          · simp [hl]
          · simp [hl, hask]
        rw [hask, hlast]
        simp only [Bool.not_true, Bool.or_self, Bool.false_eq_true, if_false]
        rcases hex : execute
            { ts := 0, side := Side.BUY, best_bid := bid, best_ask := ask
              lot_size := lot_size, max_position_rub := risk.max_position_rub
              commission_pct_per_side := execp.commission_pct_per_side
              slippage_pct := execp.slippage_pct
              desired_position_shares := none } with _ | tr
        · simp
        · have hq : ¬tr.qty_shares ≤ 0 :=
            not_le.mpr (execute_qty_pos _ "" tr hex)
          simp [hq]
      · have hex : execute
            { ts := 0, side := Side.BUY, best_bid := bid, best_ask := ask
              lot_size := lot_size, max_position_rub := risk.max_position_rub
              commission_pct_per_side := execp.commission_pct_per_side
              slippage_pct := execp.slippage_pct
              desired_position_shares := none } = none :=
          execute_buy_none_of_ask_falsy _ rfl (Bool.eq_false_iff.mpr hask)
        rw [hex]
        simp [hask]
  · by_cases hsc : sig_type = "SELL" ∨ sig_type = "CLOSE_LONG"
    · rw [if_neg hbuy, if_neg hbuy, if_pos hsc, if_pos hsc]
      cases p with
      | none =>
        cases ec with
        | none => rfl
        | some e => simp at hsync
      | some pos =>
        obtain ⟨e, rfl⟩ : ∃ e, ec = some e := by
          cases ec with
          | none => simp at hsync
          | some e => exact ⟨e, rfl⟩
        simp only []
        by_cases hbid : truthy bid
        · rw [hbid]
          simp only [Bool.not_true, Bool.false_eq_true, if_false]
          rcases hex : execute
              { ts := 0, side := Side.SELL, best_bid := bid, best_ask := ask
                lot_size := lot_size, max_position_rub := risk.max_position_rub
                commission_pct_per_side := execp.commission_pct_per_side
                slippage_pct := execp.slippage_pct
                desired_position_shares := some pos.qty_shares } with _ | tr
          · simp
          · have hq : ¬tr.qty_shares ≤ 0 :=
              not_le.mpr (execute_qty_pos _ "" tr hex)
            simp [hq]
        · have hex : execute
              { ts := 0, side := Side.SELL, best_bid := bid, best_ask := ask
                lot_size := lot_size, max_position_rub := risk.max_position_rub
                commission_pct_per_side := execp.commission_pct_per_side
                slippage_pct := execp.slippage_pct
                desired_position_shares := some pos.qty_shares } = none :=
            execute_sell_none_of_bid_falsy _ rfl (Bool.eq_false_iff.mpr hbid)
          rw [hex]
          simp [hbid]
    · rw [if_neg hbuy, if_neg hbuy, if_neg hsc, if_neg hsc]

/-- C2 amended witness: with limits admitting and no open position, a BUY at
bid 100 / ask 101 produces the same position in engine and backtest. -/
theorem c2_amended_position_refinement_witness :
    (engine_process_signal c2risk c2execp 1 "BUY" (some 100) (some 101) (some 100)
        ⟨none, {}⟩).current_position
      = (backtest_process_signal c2risk c2execp 1 "BUY" (some 100) (some 101)
        ⟨none, none, {}⟩).open_pos :=
  c2_amended_position_refinement c2risk c2execp 1 "BUY" (some 100) (some 101)
    (some 100) none none {} rfl (by with_unfolding_all decide)

/-- C10: in `BacktestRunner.run` a completed round-trip — a filled BUY from a
flat state later closed by a filled SELL — increases `day_stats.trades_count`
by exactly 2: once directly at the open and once inside
`update_day_stats_on_close`. -/
theorem c10_round_trip_counts_twice (risk : RiskLimits) (execp : ExecParams)
    (lot_size : ℤ) (bid1 ask1 bid2 ask2 : Option ℚ) (stats : DayStats)
    (st1 st2 : BtState)
    (h1 : backtest_process_signal risk execp lot_size "BUY" bid1 ask1
      ⟨none, none, stats⟩ = st1)
    (hopen : st1.open_pos.isSome = true)
    (h2 : backtest_process_signal risk execp lot_size "SELL" bid2 ask2 st1 = st2)
    (hclosed : st2.open_pos = none) :
    st2.day_stats.trades_count = stats.trades_count + 2 := by
  unfold backtest_process_signal at h1
  simp only [if_pos rfl] at h1
  by_cases hallow : allow_new_trade risk stats
  · rw [if_pos hallow] at h1
    rcases hex1 : execute
        { ts := 0, side := Side.BUY, best_bid := bid1, best_ask := ask1
          lot_size := lot_size, max_position_rub := risk.max_position_rub
          commission_pct_per_side := execp.commission_pct_per_side
          slippage_pct := execp.slippage_pct
          desired_position_shares := none } with _ | tr1
    · rw [hex1] at h1
      rw [← h1] at hopen
      simp at hopen
    · rw [hex1] at h1
      have hq1 : ¬tr1.qty_shares ≤ 0 := not_le.mpr (execute_qty_pos _ "" tr1 hex1)
      simp only [if_true, hq1, if_false] at h1
      rw [← h1] at h2
      unfold backtest_process_signal at h2
      rw [if_neg (show ¬("SELL" : String) = "BUY" by decide),
        if_pos (Or.inl rfl : ("SELL" : String) = "SELL" ∨ ("SELL" : String) = "CLOSE_LONG")]
        at h2
      simp only [] at h2
      rcases hex2 : execute
          { ts := 0, side := Side.SELL, best_bid := bid2, best_ask := ask2
            lot_size := lot_size, max_position_rub := risk.max_position_rub
            commission_pct_per_side := execp.commission_pct_per_side
            slippage_pct := execp.slippage_pct
            desired_position_shares := some (assign_stops_for_long risk
              { entry_price := tr1.exec_price
                qty_shares := tr1.qty_shares }).qty_shares } with _ | tr2
      · rw [hex2] at h2
        rw [← h2] at hclosed
        simp at hclosed
      · rw [hex2] at h2
        have hq2 : ¬tr2.qty_shares ≤ 0 := not_le.mpr (execute_qty_pos _ "" tr2 hex2)
        simp only [hq2, if_false] at h2
        rw [← h2]
        simp [update_day_stats_on_close]
  · rw [if_neg hallow] at h1
    rw [← h1] at hopen
    simp at hopen

/-- C10 witness: the concrete round-trip ends with `trades_count = 0 + 2`. -/
theorem c10_round_trip_counts_twice_witness :
    c10st2.day_stats.trades_count = ({} : DayStats).trades_count + 2 :=
  c10_round_trip_counts_twice c10risk ⟨0, 0⟩ 1 (some 100) (some 101) (some 95)
    (some 96) {} c10st1 c10st2 rfl (by with_unfolding_all decide) rfl
    (by with_unfolding_all decide)

end GazpromBot
